import Mathlib

/-!
# Verification of the mcagentgym worker orchestration subsystem

A shallow embedding, in Lean 4, of the worker-orchestration code of the
repository: `controller/name_pool.py` (`JsonNamePool`),
`controller/multiprocess_core.py` (`load_api_keys`, `TaskFeeder`,
`worker_entry`, `spawn_workers`) and `multi_process_launcher.py` (`main`'s
config construction).

Modelling conventions:
* Python strings are `String`; `len`, slicing and `+` act on the code-point
  list `String.data`.
* Randomness (`random.choice`) is modelled by an extra `pick : Nat` argument:
  the chosen element is the one at index `pick % len(candidates)`.
* Fallible Python code (raising) is modelled with `Except String` / oracle
  inputs; the `String` is the exception message.
* Sleeping, status-queue puts, the durable log append and `bench.stop()` are
  recorded in an explicit action trace; wall-clock durations and the
  configured inter-step delay are rationals.
* The shared `multiprocessing.Event` stop signal is read-only for a worker;
  its reads are oracle inputs, one per loop-iteration boundary.
-/

namespace MCAgentGym

/-! ## Python string primitives used by the code under verification -/

/-- The whitespace class of Python's `str.strip()` (ASCII part). -/
def pyIsSpace (c : Char) : Bool :=
  c == ' ' || c == '\t' || c == '\n' || c == '\r' || c == '\x0b' || c == '\x0c'

/-- Python `s.strip()`: remove leading and trailing whitespace. -/
def pyStrip (s : String) : String :=
  ⟨((s.data.dropWhile pyIsSpace).reverse.dropWhile pyIsSpace).reverse⟩

/-- Python `s.replace("\n", " ")`. -/
def pyReplaceNewline (s : String) : String :=
  ⟨s.data.map (fun c => if c = '\n' then ' ' else c)⟩

/-- One step of Python `str.format` scanning, for templates whose replacement
fields are plain names (`{agent}` and the like, no `{{` escapes, no format
specs — the only kind the repository's templates use).  The first argument is
`none` outside a replacement field and `some acc` while scanning one (the
field's characters collected in reverse).  An unknown field name or an
unterminated field yields `none`, modelling the `KeyError` / `ValueError`
that Python's `format` raises. -/
def formatAux (subst : String → Option String) :
    Option (List Char) → List Char → Option (List Char)
  | none, [] => some []
  | some _, [] => none
  | none, c :: rest =>
    if c = '{' then
      formatAux subst (some []) rest
    else
      (formatAux subst none rest).map (fun l => c :: l)
  | some acc, c :: rest =>
    if c = '}' then
      match subst ⟨acc.reverse⟩, formatAux subst none rest with
      | some v, some tail => some (v.data ++ tail)
      | _, _ => none
    else
      formatAux subst (some (c :: acc)) rest

/-- Python `template.format(...)` for plain-named replacement fields. -/
def pyFormat (template : String) (subst : String → Option String) : Option String :=
  (formatAux subst none template.data).map (fun l => ⟨l⟩)

/-! ## `controller/name_pool.py` : `JsonNamePool` -/

/-- The state of a `JsonNamePool` after `__init__` has loaded the catalog:
the file path (used in the exhaustion message), the loaded name list and the
set (here: list, with membership semantics) of names already handed out. -/
structure JsonNamePool where
  json_path : String
  names : List String
  used : List String
  deriving Repr, DecidableEq

namespace JsonNamePool

/-- `available = [n for n in self._names if n not in self._used]`. -/
def availableList (p : JsonNamePool) : List String :=
  p.names.filter (fun n => decide (n ∉ p.used))

/-- `JsonNamePool.next`: fail when no unused name remains, otherwise pick a
random unused name (`pick` models `random.choice`), mark it used, return it. -/
def next (p : JsonNamePool) (pick : Nat) : Except String (String × JsonNamePool) :=
  if h : p.availableList = [] then
    .error ("No more unique usernames available in " ++ p.json_path ++
      ". Please expand usernames.json or reduce agent count.")
  else
    let name := p.availableList.get
      ⟨pick % p.availableList.length,
       Nat.mod_lt _ (List.length_pos.mpr h)⟩
    .ok (name, { p with used := name :: p.used })

/-- `JsonNamePool.next_many(count)` = `[self.next() for _ in range(count)]`:
`picks` supplies one random choice per call, so `count = picks.length`.
A raise from `next` aborts the comprehension: the partial list is discarded
but the pool state mutated so far is kept, which the returned pool records. -/
def next_many (p : JsonNamePool) (picks : List Nat) :
    Except String (List String) × JsonNamePool :=
  match picks with
  | [] => (.ok [], p)
  | pick :: ps =>
    match p.next pick with
    | .error e => (.error e, p)
    | .ok (n, p') =>
      match p'.next_many ps with
      | (.ok ns, p'') => (.ok (n :: ns), p'')
      | (.error e, p'') => (.error e, p'')

end JsonNamePool

/-! ## `controller/multiprocess_core.py` : `TaskFeeder` -/

/-- One `TASK_LIBRARY` entry: `{"id": ..., "description": ...}`. -/
structure TaskSpec where
  id : String
  description : String
  deriving Repr, DecidableEq

/-- `--task-mode` values: `"cycle"` or `"random"`. -/
inductive TaskMode
  | cycle
  | random
  deriving Repr, DecidableEq

/-- The state of a constructed `TaskFeeder`. -/
structure TaskFeeder where
  tasks : List TaskSpec
  mode : TaskMode
  template : String
  max_turns : Nat
  cursor : Nat
  deriving Repr, DecidableEq

/-- `TaskFeeder.__init__`: raises `ValueError` on an empty task library,
otherwise stores the arguments and starts the cursor at 0. -/
def mkTaskFeeder (tasks : List TaskSpec) (mode : TaskMode) (template : String)
    (max_turns : Nat) : Except String TaskFeeder :=
  if tasks = [] then
    .error "Task library is empty; cannot drive agents."
  else
    .ok ⟨tasks, mode, template, max_turns, 0⟩

/-- The task-selection prefix of `TaskFeeder.next_instruction` (random choice
or `tasks[cursor % len(tasks)]` plus cursor increment).  On an empty task list
Python raises (`IndexError` from `random.choice` / `ZeroDivisionError` from
`% 0`); the constructor prevents that state. -/
def selectTask (f : TaskFeeder) (pick : Nat) : Except String (TaskSpec × TaskFeeder) :=
  if h : f.tasks = [] then
    .error "IndexError: task list is empty"
  else
    match f.mode with
    | .random =>
      (.ok (f.tasks.get ⟨pick % f.tasks.length, Nat.mod_lt _ (List.length_pos.mpr h)⟩, f))
    | .cycle =>
      (.ok (f.tasks.get ⟨f.cursor % f.tasks.length, Nat.mod_lt _ (List.length_pos.mpr h)⟩,
        { f with cursor := f.cursor + 1 }))

/-- The four replacement fields `TaskFeeder.next_instruction` passes to
`self.template.format(...)`; any other field name raises `KeyError`. -/
def formatMap (agent description last_summary max_turns : String) :
    String → Option String :=
  fun field =>
    if field = "agent" then some agent
    else if field = "task_description" then some description
    else if field = "last_step_summary" then some last_summary
    else if field = "max_turns" then some max_turns
    else none

/-- The summary normalisation of `TaskFeeder.next_instruction`:
strip, truncate to 400 characters plus `"..."`, and substitute the
first-call placeholder for an empty summary. -/
def summaryOf (last_feedback : Option String) : String :=
  let last_summary := pyStrip (last_feedback.getD "")
  let last_summary :=
    if 400 < last_summary.data.length then
      (⟨last_summary.data.take 400 ++ ("...".data)⟩ : String)
    else last_summary
  if last_summary = "" then "No previous step; this is your first action."
  else last_summary

/-- The template-rendering suffix of `TaskFeeder.next_instruction`
(lines 145–156 of `multiprocess_core.py`). -/
def renderInstruction (template : String) (max_turns : Nat) (agent_name : String)
    (spec : TaskSpec) (last_feedback : Option String) : Option String :=
  pyFormat template
    (formatMap agent_name (pyStrip spec.description) (summaryOf last_feedback)
      (toString max_turns))

/-- `TaskFeeder.next_instruction(agent_name, last_feedback)`; `pick` models
the `random.choice` draw used in random mode. -/
def next_instruction (f : TaskFeeder) (agent_name : String)
    (last_feedback : Option String) (pick : Nat) :
    Except String (String × TaskFeeder) :=
  match selectTask f pick with
  | .error e => .error e
  | .ok (spec, f') =>
    match renderInstruction f.template f.max_turns agent_name spec last_feedback with
    | some s => .ok (s, f')
    | none => .error "KeyError: unknown replacement field in task template"

/-- A sequence of `next_instruction` calls viewed through their task
selections (one `pick` per call); used to state the round-robin property. -/
def selectRun (f : TaskFeeder) (picks : List Nat) :
    Except String (List TaskSpec) × TaskFeeder :=
  match picks with
  | [] => (.ok [], f)
  | pick :: ps =>
    match selectTask f pick with
    | .error e => (.error e, f)
    | .ok (spec, f') =>
      match selectRun f' ps with
      | (.ok specs, f'') => (.ok (spec :: specs), f'')
      | (.error e, f'') => (.error e, f'')

/-! ## `controller/multiprocess_core.py` : `WorkerConfig` and `worker_entry` -/

/-- The `WorkerConfig` dataclass, field for field.  `env_kind` is the integer
from the external `env_type` enum; `step_delay` (seconds) is a rational. -/
structure WorkerConfig where
  agent_name : String
  env_kind : Nat
  task_id : Nat
  dig_needed : Bool
  host : String
  port : Nat
  task_name : String
  base_port : Nat
  max_turns : Nat
  fast_api : Bool
  server_debug : Bool
  step_delay : Rat
  task_mode : TaskMode
  llm_model : String
  llm_base_url : String
  api_keys : List String
  clear_logs : Bool
  task_template : String
  task_library : List TaskSpec
  deriving Repr, DecidableEq

/-- A status event put on the status queue by `send_status` (the payload keys
used by `worker_entry`). -/
inductive StatusEvent
  | starting (base_port : Nat)
  | running
  | step (duration : Rat) (feedback : String) (detail : String)
  | error (message : String)
  | stopped
  deriving Repr, DecidableEq

/-- One observable action of the worker process, in program order.
`setStop` (writing the shared stop event) is in the vocabulary so that "the
worker never sets StopSignal" is a statement about traces; no rule of the
model emits it. -/
inductive Action
  | status (e : StatusEvent)
  | stepCall (instruction : String)
  | logStep
  | sleep (seconds : Rat)
  | benchStop
  | setStop
  deriving Repr, DecidableEq

/-- Oracle outcome of one guarded block (lines 194–224): the
`bench.step` call either raises (`exn`), or returns feedback that is
normalised and reported (`ok`), or returns but a later call of the same
guarded block (status put / durable-log append) raises (`okThenExn`). -/
inductive StepOutcome
  | ok (feedback : String) (detail : String) (duration : Rat)
  | okThenExn (feedback : String) (detail : String) (duration : Rat) (msg : String)
  | exn (msg : String)
  deriving Repr, DecidableEq

/-- Oracle input for one loop-iteration boundary: the value the
`stop_event.is_set()` check reads and, if the loop body runs, what happens
inside it.  `interrupt` is a `KeyboardInterrupt` delivered during the
iteration. -/
inductive IterInput
  | stop
  | go (pick : Nat) (outcome : StepOutcome)
  | interrupt
  deriving Repr, DecidableEq

/-- How the `while` loop of `worker_entry` ended. -/
inductive LoopOutcome
  | stopSeen
  | raised (msg : String)
  | interrupted
  | pending
  deriving Repr, DecidableEq

/-- How `worker_entry` itself ended. `pending` means the oracle input list
ran out with the loop still running (no exit path taken yet). -/
inductive WorkerOutcome
  | returned
  | raised (msg : String)
  | pending
  deriving Repr, DecidableEq

/-- Feedback normalisation after a successful `bench.step` (lines 197–203):
`feedback.strip().replace("\n", " ")`, truncated to 400 characters plus
`"..."`. -/
def normalizeFeedback (fb : String) : String :=
  let s := pyReplaceNewline (pyStrip fb)
  if 400 < s.data.length then ⟨s.data.take 400 ++ ("...".data)⟩ else s

/-- The `feedback or "UNKNOWN"` payload of the `step` status event. -/
def feedbackOrUnknown (fb : String) : String :=
  if fb = "" then "UNKNOWN" else fb

/-- The `while not stop_event.is_set():` loop of `worker_entry`
(lines 191–225), as a trace generator over the oracle inputs.  Each
iteration: check the stop signal; request the next instruction (an exception
here is *outside* the inner `try` and so propagates, `LoopOutcome.raised`);
run the guarded block; on an inner exception emit an `error` event, sleep
`max(step_delay, 1.0)` and continue; on success emit a `step` event, append
to the durable log, sleep `step_delay` and loop with the normalised
feedback. -/
def runLoop (agent : String) (delay : Rat) :
    TaskFeeder → Option String → List IterInput → List Action × LoopOutcome
  | _, _, [] => ([], .pending)
  | _, _, .stop :: _ => ([], .stopSeen)
  | _, _, .interrupt :: _ => ([], .interrupted)
  | fd, last, .go pick oc :: rest =>
    match next_instruction fd agent last pick with
    | .error e => ([], .raised e)
    | .ok (instr, fd') =>
      match oc with
      | .exn m =>
        let r := runLoop agent delay fd' last rest
        (Action.stepCall instr :: Action.status (.error m) ::
          Action.sleep (max delay 1) :: r.1, r.2)
      | .ok fb detail dur =>
        let last' := normalizeFeedback fb
        let r := runLoop agent delay fd' (some last') rest
        (Action.stepCall instr ::
          Action.status (.step dur (feedbackOrUnknown fb) detail) ::
          Action.logStep :: Action.sleep delay :: r.1, r.2)
      | .okThenExn fb detail dur m =>
        let last' := normalizeFeedback fb
        let r := runLoop agent delay fd' (some last') rest
        (Action.stepCall instr ::
          Action.status (.step dur (feedbackOrUnknown fb) detail) ::
          Action.status (.error m) :: Action.sleep (max delay 1) :: r.1, r.2)

/-- `worker_entry(cfg, stop_event, status_queue)`.  The LLM configuration,
`VillagerBench` construction and agent registration are external pass-through
calls; the first modelled failure point is the `TaskFeeder` constructor
(line 185, before the `starting` event and the `try`).  `ctxEnter` is the
result of entering `bench.run(...)` (`some msg` = the context manager raised
on entry).  The `try`/`except KeyboardInterrupt`/`finally` of lines 188–230:
the `finally` always runs `bench.stop()` and emits the final `stopped`
event; `KeyboardInterrupt` is swallowed; any other exception re-raises after
the `finally`. -/
def worker_entry (cfg : WorkerConfig) (ctxEnter : Option String)
    (inputs : List IterInput) : List Action × WorkerOutcome :=
  match mkTaskFeeder cfg.task_library cfg.task_mode cfg.task_template cfg.max_turns with
  | .error e => ([], .raised e)
  | .ok feeder =>
    let pre := [Action.status (.starting cfg.base_port)]
    match ctxEnter with
    | some m => (pre ++ [Action.benchStop, Action.status .stopped], .raised m)
    | none =>
      let r := runLoop cfg.agent_name cfg.step_delay feeder none inputs
      let body := pre ++ Action.status .running :: r.1
      match r.2 with
      | .pending => (body, .pending)
      | .stopSeen => (body ++ [Action.benchStop, Action.status .stopped], .returned)
      | .interrupted => (body ++ [Action.benchStop, Action.status .stopped], .returned)
      | .raised m => (body ++ [Action.benchStop, Action.status .stopped], .raised m)

/-! ## `controller/multiprocess_core.py` : `load_api_keys` -/

/-- What opening and JSON-decoding the credential file yields: the file is
missing (`FileNotFoundError`, caught with a warning), or it is a JSON object
whose `"OPENAI"` / `"AGENT_KEY"` entries are absent or string lists. -/
inductive KeyFileResult
  | missing
  | found (openai : Option (List String)) (agent_key : Option (List String))
  deriving Repr, DecidableEq

/-- `data.get("OPENAI") or data.get("AGENT_KEY") or []`: Python `or` takes
the first truthy operand, and `None` and `[]` are falsy. -/
def pyOrKeys (openai agent_key : Option (List String)) : List String :=
  match openai with
  | some (k :: ks) => k :: ks
  | _ =>
    match agent_key with
    | some (k :: ks) => k :: ks
    | _ => []

/-- The key list the credential file contributes: empty when the `--api-key-file`
argument is falsy, the file is missing, or both JSON entries are absent/empty. -/
def fileKeys (path : Option String) (file : KeyFileResult) : List String :=
  match path with
  | none => []
  | some p =>
    if p = "" then []
    else
      match file with
      | .missing => []
      | .found openai agent_key => pyOrKeys openai agent_key

/-- Python `s.split(",")` character by character: splitting the empty string
gives `[""]`, and every comma starts a new group. -/
def splitComma : List Char → List (List Char)
  | [] => [[]]
  | c :: rest =>
    if c = ',' then [] :: splitComma rest
    else
      match splitComma rest with
      | [] => [[c]]
      | g :: gs => (c :: g) :: gs

/-- `[k.strip() for k in env_value.split(",") if k.strip()]` on the
`VILLAGER_AGENT_API_KEY` environment value. -/
def envKeys (env_value : String) : List String :=
  ((splitComma env_value.data).map (fun l => pyStrip ⟨l⟩)).filter
    (fun k => !(k = ""))

/-- `load_api_keys(path)`: prefer the key file, fall back to the environment
variable, raise `RuntimeError` when both yield nothing. -/
def load_api_keys (path : Option String) (file : KeyFileResult)
    (env_value : String) : Except String (List String) :=
  match fileKeys path file with
  | k :: ks => .ok (k :: ks)
  | [] =>
    match envKeys env_value with
    | k :: ks => .ok (k :: ks)
    | [] => .error "No API keys provided. Supply --api-key-file or set VILLAGER_AGENT_API_KEY."

/-! ## `multi_process_launcher.py` and `spawn_workers` -/

/-- The launcher arguments that flow into `WorkerConfig` construction. -/
structure LauncherArgs where
  env_kind : Nat
  task_id : Nat
  dig_needed : Bool
  host : String
  port : Nat
  task_name : String
  base_port_start : Nat
  port_step : Nat
  max_turns : Nat
  fast_api : Bool
  server_debug : Bool
  step_delay : Rat
  task_mode : TaskMode
  llm_model : String
  llm_base_url : String
  clear_logs : Bool
  task_template : String
  task_library : List TaskSpec
  deriving Repr, DecidableEq

/-- The config-construction loop of `main` (lines 77–101):
`base_port = base_port_start + idx * port_step`, `max_turns = max(1, ...)`,
`step_delay = max(0.0, ...)`. -/
def buildConfigs (args : LauncherArgs) (api_keys : List String)
    (agent_names : List String) : List WorkerConfig :=
  agent_names.enum.map (fun p =>
    { agent_name := p.2
      env_kind := args.env_kind
      task_id := args.task_id
      dig_needed := args.dig_needed
      host := args.host
      port := args.port
      task_name := args.task_name
      base_port := args.base_port_start + p.1 * args.port_step
      max_turns := max 1 args.max_turns
      fast_api := args.fast_api
      server_debug := args.server_debug
      step_delay := max 0 args.step_delay
      task_mode := args.task_mode
      llm_model := args.llm_model
      llm_base_url := args.llm_base_url
      api_keys := api_keys
      clear_logs := args.clear_logs
      task_template := args.task_template
      task_library := args.task_library })

/-- `spawn_workers(configs)`: raise `ValueError` on an empty config list,
otherwise start one process per config, in config order, and return the
handles together with the fresh (unset) shared stop event.  A handle is
identified with the config its process runs. -/
def spawn_workers (configs : List WorkerConfig) :
    Except String (List WorkerConfig × Bool) :=
  if configs = [] then .error "No worker configs provided."
  else .ok (configs, false)

/-- The startup sequence of `main` (lines 63–103 of
`multi_process_launcher.py`): load credentials, allocate agent names (from
the identity pool unless `--agents` was given), build one config per name
and spawn the workers.  A failure at any stage propagates, aborting before
the later stages run — in particular a credential failure precedes any
spawn. -/
def launcherMain (path : Option String) (file : KeyFileResult)
    (env_value : String) (explicit_agents : List String) (pool : JsonNamePool)
    (picks : List Nat) (args : LauncherArgs) :
    Except String (List WorkerConfig × Bool) :=
  match load_api_keys path file env_value with
  | .error e => .error e
  | .ok api_keys =>
    if api_keys = [] then .error "No API keys available."
    else
      match (if explicit_agents = [] then (pool.next_many picks).1
             else .ok explicit_agents) with
      | .error e => .error e
      | .ok agent_names => spawn_workers (buildConfigs args api_keys agent_names)

/-! ## Concrete fixtures used by witnesses and counterexamples -/

/-- The `TaskFeeder` a worker builds from its config (line 185). -/
def feederOf (cfg : WorkerConfig) : TaskFeeder :=
  ⟨cfg.task_library, cfg.task_mode, cfg.task_template, cfg.max_turns, 0⟩

/-- Number of `Environment.step` calls recorded in a trace. -/
def countSteps (tr : List Action) : Nat :=
  (tr.filter fun a => match a with | .stepCall _ => true | _ => false).length

/-- A worker config whose instruction template holds a replacement field the
feeder does not define — `next_instruction` raises `KeyError` on it, which is
raised by the instruction request, outside the guarded block. -/
def badTemplateConfig : WorkerConfig :=
  ⟨"AliceBot", 0, 0, false, "0.0.0.0", 25565, "survival", 5000, 3, false, false,
    2, .cycle, "gpt-4-1106-preview", "https://api.openai.com/v1", ["k1"], false,
    "X{bogus}Y", [⟨"gather_wood", "Gather basic wood resources."⟩]⟩

/-- An ordinary worker config with a well-formed template. -/
def okConfig : WorkerConfig :=
  ⟨"BobBot", 0, 0, false, "0.0.0.0", 25565, "survival", 5050, 3, false, false,
    2, .cycle, "gpt-4-1106-preview", "https://api.openai.com/v1", ["k1"], false,
    "You are {agent}: {task_description} [{last_step_summary}] ({max_turns})",
    [⟨"gather_wood", "Gather basic wood resources."⟩,
     ⟨"mine_stone_and_coal", "Set up early-game mining infrastructure."⟩]⟩

/-- Launcher arguments with the CLI defaults. -/
def defaultArgs : LauncherArgs :=
  ⟨0, 0, false, "0.0.0.0", 25565, "survival", 5000, 50, 3, false, false, 2,
    .cycle, "gpt-4-1106-preview", "https://api.openai.com/v1", false,
    "You are {agent}: {task_description} [{last_step_summary}] ({max_turns})",
    [⟨"gather_wood", "Gather basic wood resources."⟩]⟩

/-- A feedback string whose trimmed form has exactly 400 characters. -/
def fbExact400 : String := ⟨List.replicate 400 'a'⟩

/-- A feedback string whose trimmed form has 401 characters. -/
def fbLong401 : String := ⟨List.replicate 401 'a'⟩

/-- A feeder with a minimal template around the last-step-summary field. -/
def summaryFeeder : TaskFeeder :=
  ⟨[⟨"gather_wood", "Gather basic wood resources."⟩], .cycle,
    "A{last_step_summary}B", 3, 0⟩

/-! ## Lemmas about `JsonNamePool` -/

/-- Membership in the unused-name list. -/
theorem JsonNamePool.mem_availableList {p : JsonNamePool} {n : String} :
    n ∈ p.availableList ↔ n ∈ p.names ∧ n ∉ p.used := by
  simp [JsonNamePool.availableList, List.mem_filter]

/-- What a successful `next` call does to the pool. -/
theorem JsonNamePool.next_ok_spec {p : JsonNamePool} {pick : Nat} {n : String}
    {q : JsonNamePool} (h : p.next pick = .ok (n, q)) :
    n ∈ p.availableList ∧ q.used = n :: p.used ∧ q.names = p.names ∧
      q.json_path = p.json_path := by
  unfold JsonNamePool.next at h
  split at h
  · exact absurd h (by simp)
  · simp only [Except.ok.injEq, Prod.mk.injEq] at h
    obtain ⟨hn, hq⟩ := h
    subst hq
    subst hn
    exact ⟨List.get_mem _ _ _, rfl, rfl, rfl⟩

/-- `next` fails exactly on an exhausted pool. -/
theorem JsonNamePool.next_error_iff {p : JsonNamePool} {pick : Nat} :
    (∃ e, p.next pick = .error e) ↔ p.availableList = [] := by
  unfold JsonNamePool.next
  split <;> simp_all

/-- What a fully successful `next_many` run does: the returned names are
pairwise distinct, fresh with respect to the pool's used set, one per call,
and all get marked used. -/
theorem JsonNamePool.next_many_ok_spec {p : JsonNamePool} {picks : List Nat}
    {ns : List String} {q : JsonNamePool} (h : p.next_many picks = (.ok ns, q)) :
    ns.Nodup ∧ (∀ n ∈ ns, n ∈ p.names ∧ n ∉ p.used) ∧
      q.used = ns.reverse ++ p.used ∧ q.names = p.names ∧
      ns.length = picks.length := by
  induction picks generalizing p ns q with
  | nil =>
    simp only [JsonNamePool.next_many, Prod.mk.injEq, Except.ok.injEq] at h
    obtain ⟨hns, hq⟩ := h
    subst hq
    simp [← hns]
  | cons pick ps ih =>
    simp only [JsonNamePool.next_many] at h
    rcases hnext : p.next pick with e | ⟨n, p'⟩ <;> rw [hnext] at h <;> dsimp only at h
    · exact absurd h (by simp)
    · rcases hrec : p'.next_many ps with ⟨r, p''⟩
      rw [hrec] at h
      cases r with
      | error e => exact absurd h (by simp)
      | ok ns' =>
        dsimp only at h
        simp only [Prod.mk.injEq, Except.ok.injEq] at h
        obtain ⟨hns, hq⟩ := h
        subst hq
        obtain ⟨havail, hused, hnames, hpath⟩ := JsonNamePool.next_ok_spec hnext
        obtain ⟨hnd, hmem, hused', hnames', hlen⟩ := ih hrec
        obtain ⟨hn_names, hn_used⟩ := JsonNamePool.mem_availableList.mp havail
        have hfresh : ∀ x ∈ ns', x ∈ p.names ∧ x ∉ p.used ∧ x ≠ n := by
          intro x hx
          obtain ⟨hx1, hx2⟩ := hmem x hx
          rw [hnames] at hx1
          rw [hused] at hx2
          simp only [List.mem_cons, not_or] at hx2
          exact ⟨hx1, hx2.2, hx2.1⟩
        refine ⟨?_, ?_, ?_, ?_, ?_⟩
        · subst hns
          exact List.nodup_cons.mpr
            ⟨fun hmem' => (hfresh n hmem').2.2 rfl, hnd⟩
        · subst hns
          intro x hx
          rcases List.mem_cons.mp hx with hx | hx
          · subst hx; exact ⟨hn_names, hn_used⟩
          · exact ⟨(hfresh x hx).1, (hfresh x hx).2.1⟩
        · subst hns
          rw [hused', hused]
          simp [List.append_assoc]
        · rw [hnames', hnames]
        · subst hns; simp [hlen]

/-- What a failing `next_many` run does: it stops on an exhausted pool, and
the names allocated before the failure (pairwise distinct, fresh) stay marked
used in the returned pool — partial allocations are not rolled back. -/
theorem JsonNamePool.next_many_error_spec {p : JsonNamePool} {picks : List Nat}
    {e : String} {q : JsonNamePool} (h : p.next_many picks = (.error e, q)) :
    q.availableList = [] ∧ q.names = p.names ∧
      ∃ ns, ns.Nodup ∧ (∀ n ∈ ns, n ∈ p.names ∧ n ∉ p.used) ∧
        q.used = ns ++ p.used := by
  induction picks generalizing p e q with
  | nil => exact absurd h (by simp [JsonNamePool.next_many])
  | cons pick ps ih =>
    simp only [JsonNamePool.next_many] at h
    rcases hnext : p.next pick with e' | ⟨n, p'⟩ <;> rw [hnext] at h <;> dsimp only at h
    · simp only [Prod.mk.injEq, Except.error.injEq] at h
      obtain ⟨he, hq⟩ := h
      subst hq
      have hempty : p.availableList = [] :=
        JsonNamePool.next_error_iff.mp ⟨e', hnext⟩
      exact ⟨hempty, rfl, [], by simp⟩
    · rcases hrec : p'.next_many ps with ⟨r, p''⟩
      rw [hrec] at h
      cases r with
      | ok ns' => exact absurd h (by simp)
      | error e' =>
        dsimp only at h
        simp only [Prod.mk.injEq, Except.error.injEq] at h
        obtain ⟨he, hq⟩ := h
        subst hq
        obtain ⟨havail, hused, hnames, hpath⟩ := JsonNamePool.next_ok_spec hnext
        obtain ⟨hq1, hq2, ns, hnd, hmem, hq3⟩ := ih hrec
        obtain ⟨hn_names, hn_used⟩ := JsonNamePool.mem_availableList.mp havail
        have hfresh : ∀ x ∈ ns, x ∈ p.names ∧ x ∉ p.used ∧ x ≠ n := by
          intro x hx
          obtain ⟨hx1, hx2⟩ := hmem x hx
          rw [hnames] at hx1
          rw [hused] at hx2
          simp only [List.mem_cons, not_or] at hx2
          exact ⟨hx1, hx2.2, hx2.1⟩
        refine ⟨hq1, hq2.trans hnames, ns ++ [n], ?_, ?_, ?_⟩
        · rw [List.nodup_append]
          exact ⟨hnd, List.nodup_singleton n,
            fun x hx hx' => (hfresh x hx).2.2 (List.mem_singleton.mp hx')⟩
        · intro x hx
          rcases List.mem_append.mp hx with hx | hx
          · exact ⟨(hfresh x hx).1, (hfresh x hx).2.1⟩
          · rw [List.mem_singleton.mp hx]
            exact ⟨hn_names, hn_used⟩
        · rw [hq3, hused]
          simp [List.append_assoc]

/-- C3: For every identity-pool instance and every sequence of `next()` calls
on it, no call returns a name returned by an earlier call on the same
instance; and a `next()` call made when every catalog entry is already marked
used raises the exhaustion error instead of returning. -/
theorem claim_C3 :
    (∀ (p : JsonNamePool) (picks : List Nat) (ns : List String) (q : JsonNamePool),
        p.next_many picks = (.ok ns, q) →
        ns.Nodup ∧ ∀ n ∈ ns, n ∉ p.used) ∧
    (∀ (p : JsonNamePool) (pick : Nat), (∀ n ∈ p.names, n ∈ p.used) →
        ∃ e, p.next pick = .error e) := by
  constructor
  · intro p picks ns q h
    obtain ⟨hnd, hmem, _, _, _⟩ := JsonNamePool.next_many_ok_spec h
    exact ⟨hnd, fun n hn => (hmem n hn).2⟩
  · intro p pick hall
    apply JsonNamePool.next_error_iff.mpr
    rw [JsonNamePool.availableList, List.filter_eq_nil_iff]
    intro a ha
    simp [hall a ha]

/-- Witness for C3 at a concrete pool: two `next()` calls return distinct
fresh names, and `next()` on a fully used catalog fails. -/
theorem claim_C3_witness :
    ((["kimblue373", "pumpkin_s0up"] : List String).Nodup ∧
      ∀ n ∈ (["kimblue373", "pumpkin_s0up"] : List String),
        n ∉ ([] : List String)) ∧
    ∃ e, JsonNamePool.next ⟨"usernames.json", ["solo"], ["solo"]⟩ 0 = .error e := by
  constructor
  · exact claim_C3.1 ⟨"usernames.json", ["kimblue373", "pumpkin_s0up"], []⟩ [0, 0]
      ["kimblue373", "pumpkin_s0up"]
      ⟨"usernames.json", ["kimblue373", "pumpkin_s0up"], ["pumpkin_s0up", "kimblue373"]⟩
      rfl
  · exact claim_C3.2 ⟨"usernames.json", ["solo"], ["solo"]⟩ 0 (by decide)

/-- C9: `next_many(k)` is best-effort, not atomic: on a pool with `u` unused
names and `k > u`, it raises the exhaustion error after allocating exactly
the `u` unused names, those names remain marked used in the pool after the
failure, and no subsequent `next()` on the same instance ever returns
(it always raises). -/
theorem claim_C9 :
    ∀ (p : JsonNamePool) (picks : List Nat),
      p.names.Nodup →
      p.availableList.length < picks.length →
      ∃ e q ns,
        p.next_many picks = (.error e, q) ∧
        q.names = p.names ∧
        q.used = ns ++ p.used ∧
        ns.Nodup ∧
        ns.length = p.availableList.length ∧
        (∀ n, n ∈ ns ↔ n ∈ p.availableList) ∧
        ∀ pick', ∃ e', q.next pick' = .error e' := by
  intro p picks hnd hlen
  rcases hr : p.next_many picks with ⟨r, q⟩
  cases r with
  | ok ns =>
    exfalso
    obtain ⟨hnsnd, hmem, _, _, hlen'⟩ := JsonNamePool.next_many_ok_spec hr
    have hsub : ns ⊆ p.availableList := fun x hx =>
      JsonNamePool.mem_availableList.mpr (hmem x hx)
    have := (hnsnd.subperm hsub).length_le
    omega
  | error e =>
    obtain ⟨hq1, hq2, ns, hnsnd, hmem, hq3⟩ := JsonNamePool.next_many_error_spec hr
    have havailnd : p.availableList.Nodup := hnd.filter _
    have hsub1 : ns ⊆ p.availableList := fun x hx =>
      JsonNamePool.mem_availableList.mpr (hmem x hx)
    have hsub2 : p.availableList ⊆ ns := by
      intro x hx
      obtain ⟨hx1, hx2⟩ := JsonNamePool.mem_availableList.mp hx
      have hx3 : x ∈ q.used := by
        by_contra hxu
        have hxa : x ∈ q.availableList :=
          JsonNamePool.mem_availableList.mpr ⟨by rw [hq2]; exact hx1, hxu⟩
        rw [hq1] at hxa
        exact absurd hxa (List.not_mem_nil x)
      rw [hq3] at hx3
      rcases List.mem_append.mp hx3 with h | h
      · exact h
      · exact absurd h hx2
    refine ⟨e, q, ns, ?_, hq2, hq3, hnsnd, ?_, ?_, ?_⟩
    · exact hr.symm ▸ rfl
    · exact Nat.le_antisymm (hnsnd.subperm hsub1).length_le
        (havailnd.subperm hsub2).length_le
    · exact fun n => ⟨fun h => hsub1 h, fun h => hsub2 h⟩
    · exact fun pick' => JsonNamePool.next_error_iff.mpr hq1

/-- Witness for C9 at a concrete pool with 2 unused names and 3 calls. -/
theorem claim_C9_witness :
    ∃ e q ns,
      JsonNamePool.next_many ⟨"p.json", ["a", "b"], []⟩ [0, 0, 0] = (.error e, q) ∧
      q.names = (⟨"p.json", ["a", "b"], []⟩ : JsonNamePool).names ∧
      q.used = ns ++ (⟨"p.json", ["a", "b"], []⟩ : JsonNamePool).used ∧
      ns.Nodup ∧
      ns.length = (⟨"p.json", ["a", "b"], []⟩ : JsonNamePool).availableList.length ∧
      (∀ n, n ∈ ns ↔ n ∈ (⟨"p.json", ["a", "b"], []⟩ : JsonNamePool).availableList) ∧
      ∀ pick', ∃ e', q.next pick' = .error e' :=
  claim_C9 ⟨"p.json", ["a", "b"], []⟩ [0, 0, 0] (by decide) (by decide)

/-! ## Lemmas about `TaskFeeder` -/

/-- A cyclic-mode run of task selections: every call succeeds, the cursor
advances by one per call, and call `i` selects
`tasks[(cursor₀ + i) % len(tasks)]`. -/
theorem selectRun_cycle_spec (picks : List Nat) :
    ∀ (f : TaskFeeder), f.mode = .cycle → f.tasks ≠ [] →
      ∃ specs f',
        selectRun f picks = (.ok specs, f') ∧
        specs.length = picks.length ∧
        f'.tasks = f.tasks ∧ f'.mode = f.mode ∧
        f'.cursor = f.cursor + picks.length ∧
        ∀ i, i < picks.length →
          specs[i]? = f.tasks[(f.cursor + i) % f.tasks.length]? := by
  induction picks with
  | nil =>
    intro f hm ht
    exact ⟨[], f, rfl, rfl, rfl, rfl, rfl, fun i hi => absurd hi (by simp)⟩
  | cons pick ps ih =>
    intro f hm ht
    obtain ⟨specs, f', hrun, hlen, htasks, hmode, hcur, hidx⟩ :=
      ih { f with cursor := f.cursor + 1 } hm ht
    refine ⟨f.tasks.get ⟨f.cursor % f.tasks.length,
        Nat.mod_lt _ (List.length_pos.mpr ht)⟩ :: specs, f', ?_, ?_, htasks, hmode, ?_, ?_⟩
    · have hsel : selectTask f pick = .ok
          (f.tasks.get ⟨f.cursor % f.tasks.length, Nat.mod_lt _ (List.length_pos.mpr ht)⟩,
            { f with cursor := f.cursor + 1 }) := by
        unfold selectTask
        rw [dif_neg ht, hm]
      simp only [selectRun]
      rw [hsel]
      dsimp only
      rw [hrun]
    · simp [hlen]
    · rw [hcur]
      show f.cursor + 1 + ps.length = f.cursor + (pick :: ps).length
      simp only [List.length_cons]
      omega
    · intro i hi
      cases i with
      | zero =>
        have hlt : f.cursor % f.tasks.length < f.tasks.length :=
          Nat.mod_lt _ (List.length_pos.mpr ht)
        simp [List.get_eq_getElem, List.getElem?_eq_getElem hlt]
      | succ j =>
        have hj : j < ps.length := by simpa using hi
        have := hidx j hj
        simp only [List.getElem?_cons_succ]
        rw [this]
        have harith : f.cursor + 1 + j = f.cursor + (j + 1) := by omega
        simp [harith]

/-- C5: For every TaskFeeder in cyclic mode over a non-empty catalog of
length `L` and `m` calls to `next_instruction`, call `i` (0-based) selects
catalog entry `i % L`, and after exactly `L` calls the same entry reappears
in the same position. -/
theorem claim_C5 :
    ∀ (tasks : List TaskSpec) (template : String) (mt : Nat) (picks : List Nat),
      tasks ≠ [] →
      ∃ specs f',
        selectRun ⟨tasks, .cycle, template, mt, 0⟩ picks = (.ok specs, f') ∧
        specs.length = picks.length ∧
        (∀ i, i < picks.length → specs[i]? = tasks[i % tasks.length]?) ∧
        (∀ i, i + tasks.length < picks.length →
          specs[i + tasks.length]? = specs[i]?) := by
  intro tasks template mt picks ht
  obtain ⟨specs, f', hrun, hlen, _, _, _, hidx⟩ :=
    selectRun_cycle_spec picks ⟨tasks, .cycle, template, mt, 0⟩ rfl ht
  refine ⟨specs, f', hrun, hlen, ?_, ?_⟩
  · intro i hi
    simpa using hidx i hi
  · intro i hi
    have h1 := hidx (i + tasks.length) hi
    have h2 := hidx i (by omega)
    simp only [Nat.zero_add] at h1 h2
    rw [h1, h2, Nat.add_mod_right]

/-- Witness for C5: a 2-entry catalog visited three times in cyclic mode
revisits entry 0 at call 2. -/
theorem claim_C5_witness :
    ∃ specs f',
      selectRun ⟨[⟨"t1", "d1"⟩, ⟨"t2", "d2"⟩], .cycle, "T", 3, 0⟩ [7, 8, 9] =
        (.ok specs, f') ∧
      specs.length = ([7, 8, 9] : List Nat).length ∧
      (∀ i, i < ([7, 8, 9] : List Nat).length →
        specs[i]? = ([⟨"t1", "d1"⟩, ⟨"t2", "d2"⟩] : List TaskSpec)[i % 2]?) ∧
      (∀ i, i + 2 < ([7, 8, 9] : List Nat).length →
        specs[i + 2]? = specs[i]?) :=
  claim_C5 [⟨"t1", "d1"⟩, ⟨"t2", "d2"⟩] "T" 3 [7, 8, 9] (by simp)

/-! ## Lemmas about template formatting -/

/-- Characters outside replacement fields pass through the formatter. -/
theorem formatAux_passthrough (subst : String → Option String) :
    ∀ (a rest : List Char), (∀ c ∈ a, c ≠ '{') →
      formatAux subst none (a ++ rest) =
        (formatAux subst none rest).map (fun l => a ++ l) := by
  intro a
  induction a with
  | nil =>
    intro rest _
    cases h : formatAux subst none rest <;> simp [h]
  | cons c a' ih =>
    intro rest ha
    have hc : ¬(c = '{') := ha c (List.mem_cons_self c a')
    simp only [List.cons_append, formatAux, if_neg hc, List.append_eq]
    rw [ih rest (fun x hx => ha x (List.mem_cons_of_mem c hx))]
    cases h : formatAux subst none rest <;> simp [h]

/-- Scanning a replacement field: the characters up to the closing brace
join the accumulator as the field name and the formatter resumes after. -/
theorem formatAux_field (subst : String → Option String) :
    ∀ (name acc rest : List Char), (∀ c ∈ name, c ≠ '}') →
      formatAux subst (some acc) (name ++ '}' :: rest) =
        match subst ⟨acc.reverse ++ name⟩, formatAux subst none rest with
        | some v, some tail => some (v.data ++ tail)
        | _, _ => none := by
  intro name
  induction name with
  | nil =>
    intro acc rest _
    simp [formatAux]
  | cons c name' ih =>
    intro acc rest hname
    have hc : ¬(c = '}') := hname c (List.mem_cons_self c name')
    simp only [List.cons_append, formatAux, if_neg hc, List.append_eq]
    rw [ih (c :: acc) rest (fun x hx => hname x (List.mem_cons_of_mem c hx))]
    simp [List.reverse_cons, List.append_assoc]

/-- Formatting `pre{name}post` splices the substitution of `name` between
the surroundings. -/
theorem formatAux_placeholder (subst : String → Option String)
    (a name b : List Char) (v : String)
    (ha : ∀ c ∈ a, c ≠ '{') (hname : ∀ c ∈ name, c ≠ '}')
    (hv : subst ⟨name⟩ = some v) :
    formatAux subst none (a ++ '{' :: (name ++ '}' :: b)) =
      (formatAux subst none b).map (fun tail => a ++ (v.data ++ tail)) := by
  rw [formatAux_passthrough subst a _ ha]
  have hopen : formatAux subst none ('{' :: (name ++ '}' :: b)) =
      formatAux subst (some []) (name ++ '}' :: b) := by
    simp [formatAux]
  rw [hopen, formatAux_field subst name [] b hname]
  simp only [List.reverse_nil, List.nil_append, hv]
  cases h : formatAux subst none b <;> simp [h]

/-- C6: For every `last_feedback` whose trimmed form has exactly 400
characters, `next_instruction` embeds it untruncated in the formatted
instruction; for a trimmed form of 401 or more characters the embedded
summary is its first 400 characters followed by the `"..."` marker.  The
template is any one that mentions `{last_step_summary}` (split as
`a ++ "{last_step_summary}" ++ b` with no replacement field opening in
`a`). -/
theorem claim_C6 :
    ∀ (f : TaskFeeder) (agent fb : String) (pick : Nat) (a b : List Char)
      (instr : String) (f' : TaskFeeder),
      f.template.data = a ++ '{' :: ("last_step_summary".data ++ '}' :: b) →
      (∀ c ∈ a, c ≠ '{') →
      next_instruction f agent (some fb) pick = .ok (instr, f') →
      ((pyStrip fb).data.length = 400 →
        ∃ u w, instr.data = u ++ (pyStrip fb).data ++ w) ∧
      (400 < (pyStrip fb).data.length →
        ∃ u w, instr.data =
          u ++ ((pyStrip fb).data.take 400 ++ ("...".data)) ++ w) := by
  intro f agent fb pick a b instr f' htempl ha hok
  unfold next_instruction at hok
  rcases hsel : selectTask f pick with e | ⟨spec, f''⟩ <;> rw [hsel] at hok <;>
    dsimp only at hok
  · exact absurd hok (by simp)
  rcases hrender : renderInstruction f.template f.max_turns agent spec (some fb)
      with _ | s <;> rw [hrender] at hok <;> dsimp only at hok
  · exact absurd hok (by simp)
  simp only [Except.ok.injEq, Prod.mk.injEq] at hok
  obtain ⟨hs, _⟩ := hok
  subst hs
  unfold renderInstruction pyFormat at hrender
  rw [htempl, formatAux_placeholder
    (formatMap agent (pyStrip spec.description) (summaryOf (some fb))
      (toString f.max_turns))
    a ("last_step_summary".data) b (summaryOf (some fb)) ha
    (by decide) rfl] at hrender
  rcases htail : formatAux
      (formatMap agent (pyStrip spec.description) (summaryOf (some fb))
        (toString f.max_turns)) none b with _ | tail <;>
    rw [htail] at hrender
  · exact absurd hrender (by simp)
  simp only [Option.map_some', Option.some.injEq] at hrender
  have hdata : s.data = a ++ ((summaryOf (some fb)).data ++ tail) := by
    rw [← hrender]
  constructor
  · intro hlen
    have hne : pyStrip fb ≠ "" := by
      intro h0
      rw [h0] at hlen
      simp [pyStrip] at hlen
    have hsum : summaryOf (some fb) = pyStrip fb := by
      unfold summaryOf
      simp [hlen, hne]
    exact ⟨a, tail, by rw [hdata, hsum, List.append_assoc]⟩
  · intro hlen
    have hsum : summaryOf (some fb) =
        ⟨(pyStrip fb).data.take 400 ++ ("...".data)⟩ := by
      unfold summaryOf
      simp only [Option.getD_some, hlen, if_true]
      rw [if_neg]
      intro h0
      have h1 := congrArg String.data h0
      simp at h1
    exact ⟨a, tail, by rw [hdata, hsum]; simp [List.append_assoc]⟩

set_option maxRecDepth 4000 in
/-- Witness for C6 at a concrete feeder: a 400-character feedback is embedded
unchanged, a 401-character feedback as its first 400 characters plus the
marker. -/
theorem claim_C6_witness :
    (∃ u w, (⟨"A".data ++ (pyStrip fbExact400).data ++ "B".data⟩ : String).data =
        u ++ (pyStrip fbExact400).data ++ w) ∧
    (∃ u w, (⟨"A".data ++ ((pyStrip fbLong401).data.take 400 ++ ("...".data)) ++
          "B".data⟩ : String).data =
        u ++ ((pyStrip fbLong401).data.take 400 ++ ("...".data)) ++ w) := by
  constructor
  · exact (claim_C6 summaryFeeder "Ag" fbExact400 0 "A".data "B".data
      ⟨"A".data ++ (pyStrip fbExact400).data ++ "B".data⟩
      ⟨[⟨"gather_wood", "Gather basic wood resources."⟩], .cycle,
        "A{last_step_summary}B", 3, 1⟩
      (by decide) (by decide) (by rfl)).1 (by decide)
  · exact (claim_C6 summaryFeeder "Ag" fbLong401 0 "A".data "B".data
      ⟨"A".data ++ ((pyStrip fbLong401).data.take 400 ++ ("...".data)) ++ "B".data⟩
      ⟨[⟨"gather_wood", "Gather basic wood resources."⟩], .cycle,
        "A{last_step_summary}B", 3, 1⟩
      (by decide) (by decide) (by rfl)).2 (by decide)

/-! ## Lemmas about the worker loop -/

/-- A non-empty task library makes the feeder constructor succeed with a
fresh cursor. -/
theorem mkTaskFeeder_ok {tasks : List TaskSpec} (mode : TaskMode)
    (template : String) (mt : Nat) (h : tasks ≠ []) :
    mkTaskFeeder tasks mode template mt = .ok ⟨tasks, mode, template, mt, 0⟩ := by
  simp [mkTaskFeeder, h]

/-- The worker loop never writes the shared stop signal. -/
theorem runLoop_no_setStop (agent : String) (delay : Rat) :
    ∀ (inputs : List IterInput) (fd : TaskFeeder) (last : Option String),
      Action.setStop ∉ (runLoop agent delay fd last inputs).1 := by
  intro inputs
  induction inputs with
  | nil => intro fd last; simp [runLoop]
  | cons i rest ih =>
    intro fd last
    cases i with
    | stop => simp [runLoop]
    | interrupt => simp [runLoop]
    | go pick oc =>
      simp only [runLoop]
      rcases h : next_instruction fd agent last pick with e | ⟨instr, fd'⟩
      · simp
      · cases oc with
        | ok fb detail dur => simp [ih]
        | okThenExn fb detail dur m => simp [ih]
        | exn m => simp [ih]

/-- An exception escaping the worker loop can only come from the instruction
request: `bench.step` failures are absorbed by the inner handler. -/
theorem runLoop_raised_source (agent : String) (delay : Rat) :
    ∀ (inputs : List IterInput) (fd : TaskFeeder) (last : Option String) (e : String),
      (runLoop agent delay fd last inputs).2 = .raised e →
      ∃ fd₂ last₂ pick, next_instruction fd₂ agent last₂ pick = .error e := by
  intro inputs
  induction inputs with
  | nil => intro fd last e h; simp [runLoop] at h
  | cons i rest ih =>
    intro fd last e h
    cases i with
    | stop => simp [runLoop] at h
    | interrupt => simp [runLoop] at h
    | go pick oc =>
      simp only [runLoop] at h
      rcases hni : next_instruction fd agent last pick with e' | ⟨instr, fd'⟩ <;>
        rw [hni] at h <;> dsimp only at h
      · simp only [LoopOutcome.raised.injEq] at h
        exact ⟨fd, last, pick, h ▸ hni⟩
      · cases oc with
        | ok fb detail dur => exact ih fd' (some (normalizeFeedback fb)) e h
        | okThenExn fb detail dur m => exact ih fd' (some (normalizeFeedback fb)) e h
        | exn m => exact ih fd' last e h

/-- Observing the stop signal: a loop that is still pending after `pre`
stops at the next iteration boundary once the signal reads true, performing
no further work — the inputs after the observed `stop` are never consumed. -/
theorem runLoop_append_stop (agent : String) (delay : Rat) :
    ∀ (pre : List IterInput) (fd : TaskFeeder) (last : Option String)
      (rest : List IterInput),
      (runLoop agent delay fd last pre).2 = .pending →
      runLoop agent delay fd last (pre ++ IterInput.stop :: rest) =
        ((runLoop agent delay fd last pre).1, .stopSeen) := by
  intro pre
  induction pre with
  | nil => intro fd last rest _; simp [runLoop]
  | cons i pre' ih =>
    intro fd last rest h
    cases i with
    | stop => simp [runLoop] at h
    | interrupt => simp [runLoop] at h
    | go pick oc =>
      simp only [runLoop, List.cons_append] at h ⊢
      rcases hni : next_instruction fd agent last pick with e' | ⟨instr, fd'⟩ <;>
        rw [hni] at h <;> dsimp only at h ⊢
      · simp at h
      · cases oc with
        | ok fb detail dur =>
          dsimp only at h ⊢
          simp only [List.append_eq]
          rw [ih fd' (some (normalizeFeedback fb)) rest h]
        | okThenExn fb detail dur m =>
          dsimp only at h ⊢
          simp only [List.append_eq]
          rw [ih fd' (some (normalizeFeedback fb)) rest h]
        | exn m =>
          dsimp only at h ⊢
          simp only [List.append_eq]
          rw [ih fd' last rest h]

/-- Each loop iteration performs at most one `Environment.step` call. -/
theorem countSteps_runLoop_le (agent : String) (delay : Rat) :
    ∀ (inputs : List IterInput) (fd : TaskFeeder) (last : Option String),
      countSteps (runLoop agent delay fd last inputs).1 ≤ inputs.length := by
  intro inputs
  induction inputs with
  | nil => intro fd last; simp [runLoop, countSteps]
  | cons i rest ih =>
    intro fd last
    cases i with
    | stop => simp [runLoop, countSteps]
    | interrupt => simp [runLoop, countSteps]
    | go pick oc =>
      simp only [runLoop]
      rcases hni : next_instruction fd agent last pick with e' | ⟨instr, fd'⟩
      · simp [countSteps]
      · cases oc with
        | ok fb detail dur =>
          dsimp only
          have := ih fd' (some (normalizeFeedback fb))
          simp only [countSteps, List.filter, List.length_cons] at this ⊢
          omega
        | okThenExn fb detail dur m =>
          dsimp only
          have := ih fd' (some (normalizeFeedback fb))
          simp only [countSteps, List.filter, List.length_cons] at this ⊢
          omega
        | exn m =>
          dsimp only
          have := ih fd' last
          simp only [countSteps, List.filter, List.length_cons] at this ⊢
          omega

/-- C1: If `Environment.step` (or the guarded post-processing) raises, the
worker emits an `Error` event carrying the exception message, sleeps
`max(step_delay, 1.0)` seconds, and continues the loop with the remaining
iterations; the exception never propagates past the loop (the run's outcome
is that of the remaining iterations) and the worker never sets the shared
stop signal. -/
theorem claim_C1 :
    ∀ (agent : String) (delay : Rat) (fd : TaskFeeder) (last : Option String)
      (pick : Nat) (m instr : String) (fd' : TaskFeeder) (rest : List IterInput),
      next_instruction fd agent last pick = .ok (instr, fd') →
      (runLoop agent delay fd last (IterInput.go pick (.exn m) :: rest) =
        (Action.stepCall instr :: Action.status (.error m) ::
          Action.sleep (max delay 1) :: (runLoop agent delay fd' last rest).1,
         (runLoop agent delay fd' last rest).2)) ∧
      (∀ fb detail dur,
        runLoop agent delay fd last
            (IterInput.go pick (.okThenExn fb detail dur m) :: rest) =
          (Action.stepCall instr ::
            Action.status (.step dur (feedbackOrUnknown fb) detail) ::
            Action.status (.error m) :: Action.sleep (max delay 1) ::
            (runLoop agent delay fd' (some (normalizeFeedback fb)) rest).1,
           (runLoop agent delay fd' (some (normalizeFeedback fb)) rest).2)) ∧
      Action.setStop ∉
        (runLoop agent delay fd last (IterInput.go pick (.exn m) :: rest)).1 := by
  intro agent delay fd last pick m instr fd' rest hni
  refine ⟨?_, ?_, runLoop_no_setStop agent delay _ fd last⟩
  · simp only [runLoop]
    rw [hni]
  · intro fb detail dur
    simp only [runLoop]
    rw [hni]

/-- Witness for C1 at a concrete feeder and message. -/
theorem claim_C1_witness :
    (runLoop "Ag" 2 ⟨[⟨"t", "d"⟩], .cycle, "{agent}", 3, 0⟩ none
        [IterInput.go 0 (.exn "boom")] =
      (Action.stepCall "Ag" :: Action.status (.error "boom") ::
        Action.sleep (max 2 1) ::
        (runLoop "Ag" 2 ⟨[⟨"t", "d"⟩], .cycle, "{agent}", 3, 1⟩ none []).1,
       (runLoop "Ag" 2 ⟨[⟨"t", "d"⟩], .cycle, "{agent}", 3, 1⟩ none []).2)) ∧
    Action.setStop ∉
      (runLoop "Ag" 2 ⟨[⟨"t", "d"⟩], .cycle, "{agent}", 3, 0⟩ none
        [IterInput.go 0 (.exn "boom")]).1 := by
  have h := claim_C1 "Ag" 2 ⟨[⟨"t", "d"⟩], .cycle, "{agent}", 3, 0⟩ none 0 "boom"
    "Ag" ⟨[⟨"t", "d"⟩], .cycle, "{agent}", 3, 1⟩ [] rfl
  exact ⟨h.1, h.2.2⟩

/-- Counterexample to C2 as stated: with a template holding an unknown
replacement field, the `KeyError` raised by the instruction request inside
the loop is NOT caught at the loop's outer boundary (the worker run ends
with the exception propagating) and NO `Error` status event is reported —
the trace holds only `starting`, `running` and the `finally`-cleanup
events. -/
theorem claim_C2_counterexample :
    (worker_entry badTemplateConfig none [IterInput.go 0 (.ok "fb" "detail" 1)]).2 =
      .raised "KeyError: unknown replacement field in task template" ∧
    (worker_entry badTemplateConfig none [IterInput.go 0 (.ok "fb" "detail" 1)]).1 =
      [Action.status (.starting 5000), Action.status .running,
       Action.benchStop, Action.status .stopped] := by
  constructor <;> rfl

/-- C2 (amended): exceptions raised by `Environment.step` inside the guarded
block are caught and reported as `Error` status events and the loop
continues; an exception raised elsewhere in the loop body — in particular by
the instruction request to the TaskFeeder — is not caught (only
`KeyboardInterrupt` is): it propagates out of the loop after the
`finally`-cleanup runs (environment stop plus final `stopped` event) and
ends only that worker process; it is the only way an exception escapes the
loop. -/
theorem claim_C2 :
    (∀ (agent : String) (delay : Rat) (fd : TaskFeeder) (last : Option String)
        (pick : Nat) (m instr : String) (fd' : TaskFeeder) (rest : List IterInput),
        next_instruction fd agent last pick = .ok (instr, fd') →
        (runLoop agent delay fd last (IterInput.go pick (.exn m) :: rest)).2 =
          (runLoop agent delay fd' last rest).2 ∧
        Action.status (.error m) ∈
          (runLoop agent delay fd last (IterInput.go pick (.exn m) :: rest)).1) ∧
    (∀ (cfg : WorkerConfig) (ctx : Option String) (inputs : List IterInput)
        (e : String),
        cfg.task_library ≠ [] →
        (worker_entry cfg ctx inputs).2 = .raised e →
        ∃ tr, (worker_entry cfg ctx inputs).1 =
          tr ++ [Action.benchStop, Action.status .stopped]) ∧
    (∀ (agent : String) (delay : Rat) (fd : TaskFeeder) (last : Option String)
        (inputs : List IterInput) (e : String),
        (runLoop agent delay fd last inputs).2 = .raised e →
        ∃ fd₂ last₂ pick, next_instruction fd₂ agent last₂ pick = .error e) := by
  refine ⟨?_, ?_, fun agent delay fd last inputs e h =>
    runLoop_raised_source agent delay inputs fd last e h⟩
  · intro agent delay fd last pick m instr fd' rest hni
    constructor
    · simp only [runLoop]
      rw [hni]
    · simp only [runLoop]
      rw [hni]
      simp
  · intro cfg ctx inputs e ht hout
    unfold worker_entry at hout ⊢
    rw [mkTaskFeeder_ok cfg.task_mode cfg.task_template cfg.max_turns ht] at hout ⊢
    dsimp only at hout ⊢
    cases ctx with
    | some m => exact ⟨[Action.status (.starting cfg.base_port)], rfl⟩
    | none =>
      generalize hloop : runLoop cfg.agent_name cfg.step_delay
          ⟨cfg.task_library, cfg.task_mode, cfg.task_template, cfg.max_turns, 0⟩
          none inputs = r at hout ⊢
      obtain ⟨tr0, out0⟩ := r
      cases out0 <;> dsimp only at hout ⊢ <;>
        first
          | exact ⟨_, rfl⟩
          | exact absurd hout (by simp)

/-- Witness for C2 (amended) at concrete runs: a step exception is reported
and absorbed; an instruction-request exception escapes after cleanup. -/
theorem claim_C2_witness :
    ((runLoop "Ag" 2 ⟨[⟨"t", "d"⟩], .cycle, "{agent}", 3, 0⟩ none
        [IterInput.go 0 (.exn "bridge down")]).2 =
      (runLoop "Ag" 2 ⟨[⟨"t", "d"⟩], .cycle, "{agent}", 3, 1⟩ none []).2 ∧
      Action.status (.error "bridge down") ∈
        (runLoop "Ag" 2 ⟨[⟨"t", "d"⟩], .cycle, "{agent}", 3, 0⟩ none
          [IterInput.go 0 (.exn "bridge down")]).1) ∧
    (∃ tr, (worker_entry badTemplateConfig none
        [IterInput.go 0 (.ok "fb" "detail" 1)]).1 =
      tr ++ [Action.benchStop, Action.status .stopped]) ∧
    (∃ fd₂ last₂ pick, next_instruction fd₂ "AliceBot" last₂ pick =
      .error "KeyError: unknown replacement field in task template") := by
  refine ⟨claim_C2.1 "Ag" 2 ⟨[⟨"t", "d"⟩], .cycle, "{agent}", 3, 0⟩ none 0
      "bridge down" "Ag" ⟨[⟨"t", "d"⟩], .cycle, "{agent}", 3, 1⟩ [] rfl,
    claim_C2.2.1 badTemplateConfig none [IterInput.go 0 (.ok "fb" "detail" 1)]
      "KeyError: unknown replacement field in task template" (by decide) rfl,
    claim_C2.2.2 "AliceBot" 2 (feederOf badTemplateConfig) none
      [IterInput.go 0 (.ok "fb" "detail" 1)]
      "KeyError: unknown replacement field in task template" rfl⟩

/-- C8: once the shared stop signal reads true at a loop-iteration boundary,
the worker performs no further step call and reaches `Stopped`: the run over
`pre ++ [stop-read] ++ anything` equals the run over `pre` followed by the
teardown (`bench.stop()` and the final `stopped` event), anything after the
observed signal is never consumed, and the steps executed are bounded by the
iterations before the signal was observed. -/
theorem claim_C8 :
    ∀ (cfg : WorkerConfig) (pre rest : List IterInput),
      cfg.task_library ≠ [] →
      (runLoop cfg.agent_name cfg.step_delay (feederOf cfg) none pre).2 = .pending →
      worker_entry cfg none (pre ++ IterInput.stop :: rest) =
        (Action.status (.starting cfg.base_port) :: Action.status .running ::
          ((runLoop cfg.agent_name cfg.step_delay (feederOf cfg) none pre).1 ++
            [Action.benchStop, Action.status .stopped]),
         .returned) ∧
      countSteps (runLoop cfg.agent_name cfg.step_delay (feederOf cfg) none pre).1 ≤
        pre.length := by
  intro cfg pre rest ht hpend
  refine ⟨?_, countSteps_runLoop_le cfg.agent_name cfg.step_delay pre _ none⟩
  unfold worker_entry
  rw [mkTaskFeeder_ok cfg.task_mode cfg.task_template cfg.max_turns ht]
  dsimp only
  rw [show (⟨cfg.task_library, cfg.task_mode, cfg.task_template, cfg.max_turns, 0⟩ :
      TaskFeeder) = feederOf cfg from rfl]
  rw [runLoop_append_stop cfg.agent_name cfg.step_delay pre (feederOf cfg) none
    rest hpend]
  dsimp only
  simp [List.append_assoc]

/-- Witness for C8: one successful step, then the stop signal is observed. -/
theorem claim_C8_witness :
    worker_entry okConfig none
        ([IterInput.go 0 (.ok "done" "detail" 1)] ++ IterInput.stop :: []) =
      (Action.status (.starting okConfig.base_port) :: Action.status .running ::
        ((runLoop okConfig.agent_name okConfig.step_delay (feederOf okConfig) none
            [IterInput.go 0 (.ok "done" "detail" 1)]).1 ++
          [Action.benchStop, Action.status .stopped]),
       .returned) ∧
    countSteps (runLoop okConfig.agent_name okConfig.step_delay (feederOf okConfig)
        none [IterInput.go 0 (.ok "done" "detail" 1)]).1 ≤
      ([IterInput.go 0 (.ok "done" "detail" 1)] : List IterInput).length :=
  claim_C8 okConfig [IterInput.go 0 (.ok "done" "detail" 1)] [] (by decide) (by rfl)

/-- C10: on every completed run of the worker body that reached the outer
`try` — normal exit after the stop signal, `KeyboardInterrupt`, an exception
out of the loop, or an exception out of entering the environment context —
`bench.stop()` is invoked and the `stopped` status event is emitted as the
worker's final actions. -/
theorem claim_C10 :
    ∀ (cfg : WorkerConfig) (ctx : Option String) (inputs : List IterInput),
      cfg.task_library ≠ [] →
      (worker_entry cfg ctx inputs).2 ≠ .pending →
      ∃ tr, (worker_entry cfg ctx inputs).1 =
        tr ++ [Action.benchStop, Action.status .stopped] := by
  intro cfg ctx inputs ht hnp
  unfold worker_entry at hnp ⊢
  rw [mkTaskFeeder_ok cfg.task_mode cfg.task_template cfg.max_turns ht] at hnp ⊢
  dsimp only at hnp ⊢
  cases ctx with
  | some m => exact ⟨[Action.status (.starting cfg.base_port)], rfl⟩
  | none =>
    generalize hloop : runLoop cfg.agent_name cfg.step_delay
        ⟨cfg.task_library, cfg.task_mode, cfg.task_template, cfg.max_turns, 0⟩
        none inputs = r at hnp ⊢
    obtain ⟨tr0, out0⟩ := r
    cases out0 <;> dsimp only at hnp ⊢ <;>
      first
        | exact absurd rfl hnp
        | exact ⟨_, rfl⟩

/-- Witness for C10: a worker stopped by the signal ends with the cleanup
actions. -/
theorem claim_C10_witness :
    ∃ tr, (worker_entry okConfig none [IterInput.stop]).1 =
      tr ++ [Action.benchStop, Action.status .stopped] :=
  claim_C10 okConfig none [IterInput.stop] (by decide) (by decide)

/-! ## Claims about the launcher and the supervisor -/

/-- C4: For `N ≥ 1` valid configs built in `main` from pool-allocated names
and a positive port stride, `spawn_workers` returns exactly `N` handles (one
process per config, in config order, with the stop event initially unset),
the configs carry pairwise distinct identities, and their resource ranges
`[base_port_start + i·port_step, base_port_start + (i+1)·port_step)` are
pairwise non-overlapping (with pairwise distinct starting ports). -/
theorem claim_C4 :
    ∀ (pool : JsonNamePool) (picks : List Nat) (names : List String)
      (q : JsonNamePool) (args : LauncherArgs) (api_keys : List String),
      pool.next_many picks = (.ok names, q) →
      names ≠ [] →
      0 < args.port_step →
      spawn_workers (buildConfigs args api_keys names) =
        .ok (buildConfigs args api_keys names, false) ∧
      (buildConfigs args api_keys names).length = names.length ∧
      ((buildConfigs args api_keys names).map WorkerConfig.agent_name).Nodup ∧
      (buildConfigs args api_keys names).Pairwise (fun c₁ c₂ =>
        c₁.agent_name ≠ c₂.agent_name ∧ c₁.base_port ≠ c₂.base_port ∧
        (c₁.base_port + args.port_step ≤ c₂.base_port ∨
         c₂.base_port + args.port_step ≤ c₁.base_port)) := by
  intro pool picks names q args api_keys hpool hne hstep
  obtain ⟨hnd, -, -, -, -⟩ := JsonNamePool.next_many_ok_spec hpool
  have hmap : (buildConfigs args api_keys names).map WorkerConfig.agent_name =
      names := by
    unfold buildConfigs
    rw [List.map_map]
    exact List.enum_map_snd names
  have hlen : (buildConfigs args api_keys names).length = names.length := by
    unfold buildConfigs
    rw [List.length_map, List.enum_length]
  have hndmap : ((buildConfigs args api_keys names).map
      WorkerConfig.agent_name).Nodup := by rw [hmap]; exact hnd
  refine ⟨?_, hlen, hndmap, ?_⟩
  · unfold spawn_workers
    rw [if_neg]
    intro h0
    apply hne
    have h1 : (buildConfigs args api_keys names).length = 0 := by rw [h0]; rfl
    rw [hlen] at h1
    exact List.eq_nil_of_length_eq_zero h1
  · have henum : names.enum.Pairwise (fun p₁ p₂ : Nat × String => p₁.1 < p₂.1) := by
      rw [List.pairwise_iff_getElem]
      intro i j hi hj hij
      rw [List.getElem_enum, List.getElem_enum]
      simpa using hij
    have hname : (buildConfigs args api_keys names).Pairwise
        (fun c₁ c₂ => c₁.agent_name ≠ c₂.agent_name) := by
      exact List.pairwise_map.mp hndmap
    have hport : (buildConfigs args api_keys names).Pairwise
        (fun c₁ c₂ => c₁.base_port ≠ c₂.base_port ∧
          (c₁.base_port + args.port_step ≤ c₂.base_port ∨
           c₂.base_port + args.port_step ≤ c₁.base_port)) := by
      unfold buildConfigs
      rw [List.pairwise_map]
      refine henum.imp ?_
      intro p₁ p₂ hlt
      dsimp only
      have h1 : p₁.1 + 1 ≤ p₂.1 := hlt
      have h2 : p₁.1 * args.port_step + args.port_step ≤
          p₂.1 * args.port_step := by
        have h3 := Nat.mul_le_mul_right args.port_step h1
        rwa [Nat.succ_mul] at h3
      have h4 : args.base_port_start + p₁.1 * args.port_step + args.port_step ≤
          args.base_port_start + p₂.1 * args.port_step := by
        rw [Nat.add_assoc]
        exact Nat.add_le_add_left h2 _
      refine ⟨?_, Or.inl h4⟩
      have h5 : p₁.1 * args.port_step < p₂.1 * args.port_step :=
        Nat.lt_of_lt_of_le (Nat.lt_add_of_pos_right hstep) h2
      exact Nat.ne_of_lt (Nat.add_lt_add_left h5 _)
    exact hname.and hport

/-- Witness for C4: two pool-allocated names and the default stride. -/
theorem claim_C4_witness :
    spawn_workers (buildConfigs defaultArgs ["k1"] ["kimblue373", "pumpkin_s0up"]) =
      .ok (buildConfigs defaultArgs ["k1"] ["kimblue373", "pumpkin_s0up"], false) ∧
    (buildConfigs defaultArgs ["k1"] ["kimblue373", "pumpkin_s0up"]).length =
      (["kimblue373", "pumpkin_s0up"] : List String).length ∧
    ((buildConfigs defaultArgs ["k1"] ["kimblue373", "pumpkin_s0up"]).map
      WorkerConfig.agent_name).Nodup ∧
    (buildConfigs defaultArgs ["k1"] ["kimblue373", "pumpkin_s0up"]).Pairwise
      (fun c₁ c₂ => c₁.agent_name ≠ c₂.agent_name ∧ c₁.base_port ≠ c₂.base_port ∧
        (c₁.base_port + defaultArgs.port_step ≤ c₂.base_port ∨
         c₂.base_port + defaultArgs.port_step ≤ c₁.base_port)) :=
  claim_C4 ⟨"usernames.json", ["kimblue373", "pumpkin_s0up"], []⟩ [0, 0]
    ["kimblue373", "pumpkin_s0up"]
    ⟨"usernames.json", ["kimblue373", "pumpkin_s0up"],
      ["pumpkin_s0up", "kimblue373"]⟩
    defaultArgs ["k1"] rfl (by simp) (by decide)

/-- C7: credential loading fails (raises `RuntimeError`) exactly when the
credential file yields neither a non-empty `"OPENAI"` nor a non-empty
`"AGENT_KEY"` list and the fallback environment variable yields no non-empty
comma-separated entry; in particular `{"OPENAI": []}` with an empty
environment fails; and a credential failure aborts the launcher before any
worker is spawned. -/
theorem claim_C7 :
    (∀ (path : Option String) (file : KeyFileResult) (env_value : String),
        (∃ e, load_api_keys path file env_value = .error e) ↔
          (fileKeys path file = [] ∧ envKeys env_value = [])) ∧
    load_api_keys (some "API_KEY_LIST") (.found (some []) none) "" =
      .error "No API keys provided. Supply --api-key-file or set VILLAGER_AGENT_API_KEY." ∧
    (∀ (path : Option String) (file : KeyFileResult) (env_value : String)
        (e : String) (explicit_agents : List String) (pool : JsonNamePool)
        (picks : List Nat) (args : LauncherArgs),
        load_api_keys path file env_value = .error e →
        launcherMain path file env_value explicit_agents pool picks args =
          .error e) := by
  refine ⟨?_, by rfl, ?_⟩
  · intro path file env_value
    constructor
    · rintro ⟨e, he⟩
      unfold load_api_keys at he
      rcases hf : fileKeys path file with _ | ⟨k, ks⟩ <;> rw [hf] at he
      · rcases henv : envKeys env_value with _ | ⟨k, ks⟩ <;> rw [henv] at he
        · exact ⟨rfl, rfl⟩
        · exact absurd he (by simp)
      · exact absurd he (by simp)
    · rintro ⟨h1, h2⟩
      refine ⟨"No API keys provided. Supply --api-key-file or set VILLAGER_AGENT_API_KEY.", ?_⟩
      unfold load_api_keys
      rw [h1, h2]
  · intro path file env_value e explicit_agents pool picks args hload
    unfold launcherMain
    rw [hload]

/-- Witness for C7's launcher clause: the empty-`OPENAI` scenario aborts
`main` with the credential error before any spawn. -/
theorem claim_C7_witness :
    launcherMain (some "API_KEY_LIST") (.found (some []) none) "" []
        ⟨"usernames.json", ["kimblue373"], []⟩ [0] defaultArgs =
      .error "No API keys provided. Supply --api-key-file or set VILLAGER_AGENT_API_KEY." :=
  claim_C7.2.2 (some "API_KEY_LIST") (.found (some []) none) "" _ []
    ⟨"usernames.json", ["kimblue373"], []⟩ [0] defaultArgs rfl

end MCAgentGym
